import Mathlib

/-!
# Verification of `worker.js` (HubSpot incremental-sync worker)

Shallow embedding of `src/pro_active_delivery/worker.js`.  Timestamps are
epoch milliseconds, modelled as `Int` (a JS `Date` compared or subtracted
numerically).  The remote API, association API and batch-read API are
external collaborators: each pass consumes a *script* of outcomes — the
sequence of responses (or failures) the environment delivers to the
successive calls the code makes.  The embedding mirrors the control flow
of the three pass functions (`processContacts`, `processCompanies`,
`processMeetings`), the retry loop (`tryCount <= 4`, i.e. at most five
attempts), the cursor-reset-at-9900 policy, the action queue
(`createQueue`/`drainQueue`) and the per-account orchestration
(`pullDataFromHubspot`).
-/

namespace Worker

/-- A JSON-ish property value as it appears in an action's properties map. -/
inductive JVal where
  | str : String → JVal
  | num : Int → JVal
deriving Repr, DecidableEq

/-- Modelled from the spec: `filterNullValuesFromObject` (defined in
`utils.js`, which is not under `src/`) removes the keys whose value is null
from a properties object; the spec calls it "a properties map with
null-valued keys removed".  A property object is an association list whose
`none` values are the null/undefined entries. -/
def filterNullValuesFromObject (props : List (String × Option JVal)) :
    List (String × JVal) :=
  props.filterMap fun kv => kv.2.map fun v => (kv.1, v)

/-- JS truthiness of a string-valued property: `undefined`, `null` and the
empty string are all falsy (`!contact.properties.email`, `!email`). -/
def truthyStr : Option String → Option String
  | none => none
  | some s => if s = "" then none else some s

/-- `parseInt(contact.properties.hubspotscore) || 0`: a missing or
non-numeric score becomes `0`. -/
def parseScore : Option String → Int
  | none => 0
  | some s => (s.toInt?).getD 0

/-! ## Remote records (only the fields the worker reads) -/

/-- Company properties read by `processCompanies` (`company.properties.domain`,
`company.properties.industry`); a `none` field is a null property. -/
structure CompanyProps where
  domain : Option String
  industry : Option String
deriving Repr, DecidableEq

/-- A company search result: `id`, `createdAt`, `updatedAt` and an optional
`properties` object (`none` models a record without one, which
`processCompanies` skips). -/
structure CompanyRec where
  id : String
  createdAt : Int
  updatedAt : Int
  properties : Option CompanyProps
deriving Repr, DecidableEq

/-- Contact properties read by `processContacts`. -/
structure ContactProps where
  firstname : Option String
  lastname : Option String
  jobtitle : Option String
  email : Option String
  hubspotscore : Option String
  hs_lead_status : Option String
  hs_analytics_source : Option String
deriving Repr, DecidableEq

/-- A contact search result. -/
structure ContactRec where
  id : String
  createdAt : Int
  updatedAt : Int
  properties : Option ContactProps
deriving Repr, DecidableEq

/-- Meeting properties read by `processMeetings`; `hs_createdate` and
`hs_lastmodifieddate` are the timestamps the meeting pass classifies and
paginates on. -/
structure MeetingProps where
  hs_meeting_title : Option String
  hs_meeting_start_time : Option String
  hs_meeting_end_time : Option String
  hs_createdate : Int
  hs_lastmodifieddate : Int
deriving Repr, DecidableEq

/-- A meeting search result; `processMeetings` reads
`meeting.properties.hs_createdate` without guarding `properties`, so a
record with `properties = none` makes the transform throw. -/
structure MeetingRec where
  id : String
  properties : Option MeetingProps
deriving Repr, DecidableEq

/-! ## Output actions -/

/-- The action pushed by `processCompanies`: `companyProperties` are passed
through raw (not null-filtered). -/
structure CompanyAction where
  actionName : String
  actionDate : Int
  includeInAnalytics : Int
  company_id : String
  company_domain : Option String
  company_industry : Option String
deriving Repr, DecidableEq

/-- The action pushed by `processContacts`. -/
structure ContactAction where
  actionName : String
  actionDate : Int
  includeInAnalytics : Int
  identity : String
  userProperties : List (String × JVal)
deriving Repr, DecidableEq

/-- The action pushed by `processMeetings` (one per resolved attendee). -/
structure MeetingAction where
  actionName : String
  actionDate : Int
  includeInAnalytics : Int
  identity : String
  userProperties : List (String × JVal)
deriving Repr, DecidableEq

/-! ## Association / batch-read responses -/

/-- One entry of the contact→company batch association response; entries
without a `from` are dropped by the code, `toIds` is `association.to`. -/
structure ContactAssoc where
  fromId : Option String
  toIds : List String
deriving Repr, DecidableEq

/-- `companyAssociations[contact.id]`: `Object.fromEntries` keeps the last
entry for a duplicate key, and the value is `association.to[0]?.id`. -/
def companyAssociationLookup (results : List ContactAssoc) (cid : String) :
    Option String :=
  match (results.filter fun a => a.fromId = some cid).getLast? with
  | none => none
  | some a => a.toIds.head?

/-- One entry of the meeting→contact batch association response; the code
skips entries with `!assoc.from || !assoc.to`. -/
structure MeetingAssoc where
  fromId : Option String
  toIds : Option (List String)
deriving Repr, DecidableEq

/-- `meetingToContactsMap[meeting.id]`: all contact ids pushed for a meeting
id, in response order (entries missing `from` or `to` contribute nothing). -/
def meetingContacts (assocs : List MeetingAssoc) (mid : String) :
    List String :=
  assocs.flatMap fun a =>
    if a.fromId = some mid then a.toIds.getD [] else []

/-- One entry of the contacts batch-read response: `[c.id, c.properties.email]`. -/
structure EmailEntry where
  id : String
  email : Option String
deriving Repr, DecidableEq

/-- `contactIdToEmail[cid]` (`Object.fromEntries`, last entry wins). -/
def contactEmailLookup (entries : List EmailEntry) (cid : String) :
    Option String :=
  match (entries.filter fun e => e.id = cid).getLast? with
  | none => none
  | some e => e.email

/-! ## Per-record transforms -/

/-- The body of the `data.forEach` in `processCompanies`: skip a record
without `properties`; classify by `createdAt > lastPulledDate` (the
`!lastPulledDate ||` disjunct is always false since a JS `Date` object is
truthy); `actionDate` is `new Date(isCreated ? createdAt : updatedAt) - 2000`
— the 2000 ms subtraction applies to created *and* updated actions. -/
def transformCompany (lastPulledDate : Int) (company : CompanyRec) :
    List CompanyAction :=
  match company.properties with
  | none => []
  | some props =>
    let isCreated := lastPulledDate < company.createdAt
    [{ actionName := if isCreated then "Company Created" else "Company Updated"
       actionDate :=
         (if isCreated then company.createdAt else company.updatedAt) - 2000
       includeInAnalytics := 0
       company_id := company.id
       company_domain := props.domain
       company_industry := props.industry }]

/-- `userProperties` object built for a contact before null-filtering. -/
def contactUserProperties (companyId : Option String) (p : ContactProps) :
    List (String × Option JVal) :=
  [("company_id", companyId.map JVal.str),
   ("contact_name",
     some (JVal.str (((p.firstname.getD "") ++ " " ++ (p.lastname.getD "")).trim))),
   ("contact_title", p.jobtitle.map JVal.str),
   ("contact_source", p.hs_analytics_source.map JVal.str),
   ("contact_status", p.hs_lead_status.map JVal.str),
   ("contact_score", some (JVal.num (parseScore p.hubspotscore)))]

/-- The body of the `data.forEach` in `processContacts`: skip when
`!contact.properties || !contact.properties.email`; classify by
`createdAt > lastPulledDate`; `actionDate` carries the raw timestamp. -/
def transformContact (lastPulledDate : Int) (assocs : List ContactAssoc)
    (contact : ContactRec) : List ContactAction :=
  match contact.properties with
  | none => []
  | some props =>
    match truthyStr props.email with
    | none => []
    | some email =>
      let companyId := companyAssociationLookup assocs contact.id
      let isCreated := lastPulledDate < contact.createdAt
      [{ actionName := if isCreated then "Contact Created" else "Contact Updated"
         actionDate := if isCreated then contact.createdAt else contact.updatedAt
         includeInAnalytics := 0
         identity := email
         userProperties :=
           filterNullValuesFromObject (contactUserProperties companyId props) }]

/-- `userProperties` object built for a meeting before null-filtering. -/
def meetingUserProperties (p : MeetingProps) : List (String × Option JVal) :=
  [("meeting_title", p.hs_meeting_title.map JVal.str),
   ("meeting_start_time", p.hs_meeting_start_time.map JVal.str),
   ("meeting_end_time", p.hs_meeting_end_time.map JVal.str)]

/-- The body of the `data.forEach` in `processMeetings`:
`meeting.properties.hs_createdate` is read without a guard, so a record
whose `properties` is absent throws a `TypeError` (modelled as `.error ()`);
otherwise one action is pushed per associated contact whose email resolves
(`if (!email) return`). -/
def transformMeeting (lastPulledDate : Int) (assocs : List MeetingAssoc)
    (emails : List EmailEntry) (meeting : MeetingRec) :
    Except Unit (List MeetingAction) :=
  match meeting.properties with
  | none => Except.error ()
  | some props =>
    let isCreated := lastPulledDate < props.hs_createdate
    let name := if isCreated then "Meeting Created" else "Meeting Updated"
    let date := if isCreated then props.hs_createdate else props.hs_lastmodifieddate
    let ups := filterNullValuesFromObject (meetingUserProperties props)
    Except.ok <|
      (meetingContacts assocs meeting.id).filterMap fun cid =>
        match truthyStr (contactEmailLookup emails cid) with
        | none => none
        | some email =>
          some { actionName := name, actionDate := date,
                 includeInAnalytics := 0, identity := email,
                 userProperties := ups }

/-! ## The paginated pass loop -/

/-- One page of a search response: `results` and
`parseInt(searchResult?.paging?.next?.after)` (`none` models `NaN`, i.e. a
missing `paging.next.after`). -/
structure SearchResult (ρ : Type) where
  results : List ρ
  nextAfter : Option Nat
deriving Repr, DecidableEq

/-- One outcome the environment delivers to one `doSearch` attempt: either
the attempt throws, or it returns a page together with the entity-specific
per-page side responses `α` (association / batch-read results obtained for
that page). -/
inductive FetchOutcome (ρ α : Type) where
  | fail
  | ok (r : SearchResult ρ) (extra : α)
deriving Repr, DecidableEq

/-- What one pass function returns: the actions it pushed onto the queue (in
push order, including those pushed before a failure), whether the pass
reached its successful end (`return true`), the watermark it committed
(`account.lastPulledDates.<kind> = now` — `none` when the `catch` path
returned `false`), and the trace of cursor resets as pairs
(effective `windowStart` before the reset, new `windowStart`). -/
structure PassOutput (A : Type) where
  actions : List A
  ok : Bool
  committed : Option Int
  resets : List (Int × Int)
deriving Repr, DecidableEq

/-- `offsetObject.lastModifiedDate || lastPulledDate`: the effective window
start of the next request (a stored value of `0` is falsy in JS and falls
back to `lastPulledDate`). -/
def effectiveWindowStart (lastPulledDate : Int) (lastMod : Option Int) : Int :=
  match lastMod with
  | none => lastPulledDate
  | some v => if v = 0 then lastPulledDate else v

/-- The `while (hasMore)` loop common to the three pass functions, driven by
the script of fetch outcomes.  `tryCount` is the retry counter of the inner
`while (tryCount <= 4)` loop: an attempt failing at `tryCount = 4` leaves
`searchResult` null and the pass throws (`ok := false`, nothing committed).
On a successful fetch, `procPage` transforms the page (its `Bool` is true
when the forEach threw mid-page, as `processMeetings` does on a record
without `properties`); then `offsetObject.after` is examined: falsy (`none`
or `0`) ends the loop and commits `now`; `after >= 9900` resets the cursor
to `0` and advances `windowStart` to `lastModOf` of the page's last record
(throwing if the page is empty or that record's field is unreadable);
otherwise pagination continues.  An exhausted script means no further
response ever arrives, i.e. the fetch fails. -/
def runPassAux {ρ α A : Type} (procPage : α → List ρ → List A × Bool)
    (lastModOf : ρ → Option Int) (lastPulledDate now : Int) :
    List (FetchOutcome ρ α) → Nat → Option Nat → Option Int → List A →
    List (Int × Int) → PassOutput A
  | [], _, _, _, acc, resets => ⟨acc, false, none, resets⟩
  | .fail :: rest, tryCount, after, lastMod, acc, resets =>
    if 4 ≤ tryCount then ⟨acc, false, none, resets⟩
    else
      runPassAux procPage lastModOf lastPulledDate now rest (tryCount + 1)
        after lastMod acc resets
  | .ok r extra :: rest, _, _, lastMod, acc, resets =>
    let pr := procPage extra r.results
    let acc' := acc ++ pr.1
    if pr.2 then ⟨acc', false, none, resets⟩
    else
      match r.nextAfter with
      | none => ⟨acc', true, some now, resets⟩
      | some a =>
        if a = 0 then ⟨acc', true, some now, resets⟩
        else if 9900 ≤ a then
          match r.results.getLast? with
          | none => ⟨acc', false, none, resets⟩
          | some lastRec =>
            match lastModOf lastRec with
            | none => ⟨acc', false, none, resets⟩
            | some lm =>
              runPassAux procPage lastModOf lastPulledDate now rest 0
                (some 0) (some lm) acc'
                (resets ++ [(effectiveWindowStart lastPulledDate lastMod, lm)])
        else
          runPassAux procPage lastModOf lastPulledDate now rest 0 (some a)
            lastMod acc' resets

/-- Run one pass from its initial state (`offsetObject = {}`, `tryCount = 0`,
no actions pushed yet). -/
def runPass {ρ α A : Type} (procPage : α → List ρ → List A × Bool)
    (lastModOf : ρ → Option Int) (lastPulledDate now : Int)
    (script : List (FetchOutcome ρ α)) : PassOutput A :=
  runPassAux procPage lastModOf lastPulledDate now script 0 none none [] []

/-- Page processing of `processCompanies`: no per-page side calls, a plain
forEach that never throws. -/
def processCompaniesPage (lastPulledDate : Int) (_extra : Unit)
    (data : List CompanyRec) : List CompanyAction × Bool :=
  (data.flatMap (transformCompany lastPulledDate), false)

/-- Page processing of `processContacts`: the association call's outcome is
the page's `α` (`none` when the call threw, degrading to an empty results
list); the forEach never throws. -/
def processContactsPage (lastPulledDate : Int)
    (assocOutcome : Option (List ContactAssoc)) (data : List ContactRec) :
    List ContactAction × Bool :=
  (data.flatMap (transformContact lastPulledDate (assocOutcome.getD [])), false)

/-- The forEach of `processMeetings`, which stops at the first record whose
transform throws: actions pushed before the throw stay on the queue. -/
def meetingsForEach (lastPulledDate : Int) (assocs : List MeetingAssoc)
    (emails : List EmailEntry) :
    List MeetingRec → List MeetingAction → List MeetingAction × Bool
  | [], acc => (acc, false)
  | m :: rest, acc =>
    match transformMeeting lastPulledDate assocs emails m with
    | Except.error _ => (acc, true)
    | Except.ok acts => meetingsForEach lastPulledDate assocs emails rest (acc ++ acts)

/-- Page processing of `processMeetings`: the page's `α` carries the
meeting→contact association outcome and the contacts batch-read outcome
(`none` = the call threw, degrading to empty results). -/
def processMeetingsPage (lastPulledDate : Int)
    (extra : Option (List MeetingAssoc) × Option (List EmailEntry))
    (data : List MeetingRec) : List MeetingAction × Bool :=
  meetingsForEach lastPulledDate (extra.1.getD []) (extra.2.getD []) data []

/-- `processCompanies(domain, hubId, q)` for one account, with the
environment's responses scripted: `lastPulledDate` is
`account.lastPulledDates.companies`, `now` is captured once at entry. -/
def processCompanies (lastPulledDate now : Int)
    (script : List (FetchOutcome CompanyRec Unit)) : PassOutput CompanyAction :=
  runPass (processCompaniesPage lastPulledDate) (fun c => some c.updatedAt)
    lastPulledDate now script

/-- `processContacts(domain, hubId, q)` with scripted responses. -/
def processContacts (lastPulledDate now : Int)
    (script : List (FetchOutcome ContactRec (Option (List ContactAssoc)))) :
    PassOutput ContactAction :=
  runPass (processContactsPage lastPulledDate) (fun c => some c.updatedAt)
    lastPulledDate now script

/-- `processMeetings(domain, hubId, q)` with scripted responses.  The
cursor-reset branch reads `data[data.length - 1].properties.hs_lastmodifieddate`,
which throws when that record has no `properties`. -/
def processMeetings (lastPulledDate now : Int)
    (script : List (FetchOutcome MeetingRec
      (Option (List MeetingAssoc) × Option (List EmailEntry)))) :
    PassOutput MeetingAction :=
  runPass (processMeetingsPage lastPulledDate)
    (fun m => m.properties.map (fun p => p.hs_lastmodifieddate))
    lastPulledDate now script

/-! ## Action queue (`createQueue` / `drainQueue`) -/

/-- The in-memory state of one account's action queue: the live `actions`
array and the batches already handed to the sink (`goal(copyOfActions)`). -/
structure QueueState (A : Type) where
  actions : List A
  flushedBatches : List (List A)
deriving Repr, DecidableEq

/-- The worker body installed by `createQueue`: push the action onto
`actions`; if `actions.length > 2000`, snapshot the whole array, clear it
(`splice(0, length)`) and hand the snapshot to the sink. -/
def pushToQueue {A : Type} (st : QueueState A) (a : A) : QueueState A :=
  let pending := st.actions ++ [a]
  if 2000 < pending.length then ⟨[], st.flushedBatches ++ [pending]⟩
  else ⟨pending, st.flushedBatches⟩

/-- Process a sequence of pushes in order (the queue's concurrency bound of
100000000 never binds; processing is single-threaded per account). -/
def pushAllToQueue {A : Type} (st : QueueState A) (l : List A) : QueueState A :=
  l.foldl pushToQueue st

/-- `drainQueue(domain, actions, q)`: after the queue empties, any remaining
actions are handed to the sink as a final batch. -/
def drainQueue {A : Type} (st : QueueState A) : QueueState A :=
  if st.actions.length > 0 then ⟨st.actions, st.flushedBatches ++ [st.actions]⟩
  else st

/-! ## Per-account orchestration (`pullDataFromHubspot`) -/

/-- The per-kind watermarks of one account
(`account.lastPulledDates.{contacts, companies, meetings}`). -/
structure Account where
  hubId : String
  contactsDate : Int
  companiesDate : Int
  meetingsDate : Int
deriving Repr, DecidableEq

/-- The scripted environment for one account's run: one response script per
pass, plus the `now` each pass captures at its start. -/
structure AccountScripts where
  nowContacts : Int
  nowCompanies : Int
  nowMeetings : Int
  contactsScript : List (FetchOutcome ContactRec (Option (List ContactAssoc)))
  companiesScript : List (FetchOutcome CompanyRec Unit)
  meetingsScript : List (FetchOutcome MeetingRec
    (Option (List MeetingAssoc) × Option (List EmailEntry)))

/-- An action on the shared per-account queue, tagged by entity kind. -/
inductive AnyAction where
  | contact (a : ContactAction)
  | company (a : CompanyAction)
  | meeting (a : MeetingAction)
deriving Repr, DecidableEq

/-- The body of the account loop in `pullDataFromHubspot`: run
`processContacts`, then `processCompanies`, then `processMeetings`, each in
its own try/catch so a failed pass never prevents the next; each pass
commits its own watermark only on its success path.  Returns the updated
account and the actions pushed onto the queue, in push order. -/
def processAccount (acct : Account) (s : AccountScripts) :
    Account × List AnyAction :=
  let rc := processContacts acct.contactsDate s.nowContacts s.contactsScript
  let rk := processCompanies acct.companiesDate s.nowCompanies s.companiesScript
  let rm := processMeetings acct.meetingsDate s.nowMeetings s.meetingsScript
  (⟨acct.hubId,
    if rc.ok then s.nowContacts else acct.contactsDate,
    if rk.ok then s.nowCompanies else acct.companiesDate,
    if rm.ok then s.nowMeetings else acct.meetingsDate⟩,
   rc.actions.map AnyAction.contact ++ rk.actions.map AnyAction.company ++
     rm.actions.map AnyAction.meeting)

/-- `pullDataFromHubspot`: iterate the configured accounts; each account is
processed independently of the outcome of the previous ones. -/
def pullDataFromHubspot (accounts : List (Account × AccountScripts)) :
    List (Account × List AnyAction) :=
  accounts.map fun p => processAccount p.1 p.2

/-! ## Auxiliary predicates and script shapes used by the statements -/

/-- A fetch outcome whose returned cursor stays below the depth limit.  In
HubSpot's search API the `after` cursor is the record offset, so every
pagination sequence with fewer than 9900 cumulative records satisfies this
for all its pages. -/
def cursorBelowLimit {ρ α : Type} : FetchOutcome ρ α → Bool
  | .fail => true
  | .ok r _ =>
    match r.nextAfter with
    | none => true
    | some a => a < 9900

/-- A script in page-aligned form: before each page's successful response,
the environment makes the fetch fail `pg.1` times. -/
def scriptWithRetries {ρ α : Type} (pages : List (Nat × SearchResult ρ × α)) :
    List (FetchOutcome ρ α) :=
  pages.flatMap fun pg =>
    List.replicate pg.1 FetchOutcome.fail ++ [FetchOutcome.ok pg.2.1 pg.2.2]

/-- The same pages with every fetch succeeding on its first attempt. -/
def cleanScript {ρ α : Type} (pages : List (Nat × SearchResult ρ × α)) :
    List (FetchOutcome ρ α) :=
  pages.map fun pg => FetchOutcome.ok pg.2.1 pg.2.2

/-- A contact record that survives the
`!contact.properties || !contact.properties.email` guard. -/
def contactHasIdentity (k : ContactRec) : Bool :=
  match k.properties with
  | none => false
  | some p => (truthyStr p.email).isSome

/-! ## Helper lemmas about the pass loop -/

/-- Whatever the script, a pass that reached its success path committed
exactly the `now` captured at pass start. -/
theorem runPassAux_ok_committed {ρ α A : Type}
    (p : α → List ρ → List A × Bool) (lmo : ρ → Option Int)
    (lp now : Int) (script : List (FetchOutcome ρ α)) :
    ∀ t after lastMod acc rs,
      (runPassAux p lmo lp now script t after lastMod acc rs).ok = true →
      (runPassAux p lmo lp now script t after lastMod acc rs).committed = some now := by
  induction script with
  | nil => intro t after lastMod acc rs h; simp [runPassAux] at h
  | cons o rest ih =>
    intro t after lastMod acc rs h
    cases o with
    | fail =>
      simp only [runPassAux] at h ⊢
      by_cases ht : 4 ≤ t
      · simp [ht] at h
      · simp only [ht, if_false] at h ⊢
        exact ih _ _ _ _ _ h
    | ok r extra =>
      simp only [runPassAux] at h ⊢
      by_cases hpr : (p extra r.results).2 = true
      · simp [hpr] at h
      · simp only [hpr, if_false] at h ⊢
        cases hna : r.nextAfter with
        | none => simp [hna]
        | some a =>
          simp only [hna] at h ⊢
          by_cases ha0 : a = 0
          · simp [ha0]
          · simp only [ha0, if_false] at h ⊢
            by_cases ha9 : 9900 ≤ a
            · simp only [ha9, if_true] at h ⊢
              cases hl : r.results.getLast? with
              | none => simp [hl] at h
              | some lastRec =>
                simp only [hl] at h ⊢
                cases hlm : lmo lastRec with
                | none => simp [hlm] at h
                | some lm =>
                  simp only [hlm] at h ⊢
                  exact ih _ _ _ _ _ h
            · simp only [ha9, if_false] at h ⊢
              exact ih _ _ _ _ _ h

/-- While every returned cursor stays below the depth limit, the
reset-and-narrow branch is never taken: the reset trace never grows. -/
theorem runPassAux_no_reset {ρ α A : Type}
    (p : α → List ρ → List A × Bool) (lmo : ρ → Option Int)
    (lp now : Int) (script : List (FetchOutcome ρ α))
    (hbl : ∀ o ∈ script, cursorBelowLimit o = true) :
    ∀ t after lastMod acc rs,
      (runPassAux p lmo lp now script t after lastMod acc rs).resets = rs := by
  induction script with
  | nil => intro t after lastMod acc rs; simp [runPassAux]
  | cons o rest ih =>
    have hbl' : ∀ o ∈ rest, cursorBelowLimit o = true := by
      intro o' ho'; exact hbl o' (List.mem_cons_of_mem _ ho')
    intro t after lastMod acc rs
    cases o with
    | fail =>
      simp only [runPassAux]
      by_cases ht : 4 ≤ t
      · simp [ht]
      · simp only [ht, if_false]
        exact ih hbl' _ _ _ _ _
    | ok r extra =>
      have hbo := hbl _ (List.mem_cons_self _ _)
      simp only [runPassAux]
      by_cases hpr : (p extra r.results).2 = true
      · simp [hpr]
      · simp only [hpr, if_false]
        cases hna : r.nextAfter with
        | none => simp [hna]
        | some a =>
          simp only [hna]
          by_cases ha0 : a = 0
          · simp [ha0]
          · simp only [ha0, if_false]
            have ha9 : ¬ 9900 ≤ a := by
              simp only [cursorBelowLimit, hna, decide_eq_true_eq] at hbo
              omega
            simp only [ha9, if_false]
            exact ih hbl' _ _ _ _ _

/-- Retrying `k` times (with `t + k` still within the retry ceiling) merely
advances the retry counter: the loop proceeds with the remaining script. -/
theorem runPassAux_replicate_fail {ρ α A : Type}
    (p : α → List ρ → List A × Bool) (lmo : ρ → Option Int)
    (lp now : Int) (k : Nat) :
    ∀ (s : List (FetchOutcome ρ α)) t after lastMod acc rs, t + k ≤ 4 →
      runPassAux p lmo lp now (List.replicate k FetchOutcome.fail ++ s)
        t after lastMod acc rs
      = runPassAux p lmo lp now s (t + k) after lastMod acc rs := by
  induction k with
  | zero => intro s t after lastMod acc rs _; rfl
  | succ n ih =>
    intro s t after lastMod acc rs htk
    have ht : ¬ 4 ≤ t := by omega
    have h1 : List.replicate (n + 1) (FetchOutcome.fail : FetchOutcome ρ α) ++ s
        = FetchOutcome.fail :: (List.replicate n FetchOutcome.fail ++ s) := by
      simp [List.replicate_succ]
    rw [h1]
    simp only [runPassAux, ht, if_false]
    rw [ih s (t + 1) after lastMod acc rs (by omega)]
    have h2 : t + 1 + n = t + (n + 1) := by omega
    rw [h2]

/-- The retry counter is irrelevant to a successful fetch, and processing a
fetched page only looks at the page itself: if two continuation scripts are
interchangeable from every state, so are the scripts with that page put in
front. -/
theorem runPassAux_ok_step_congr {ρ α A : Type}
    (p : α → List ρ → List A × Bool) (lmo : ρ → Option Int)
    (lp now : Int) (r : SearchResult ρ) (extra : α)
    (s s2 : List (FetchOutcome ρ α))
    (h : ∀ after lastMod acc rs,
      runPassAux p lmo lp now s 0 after lastMod acc rs
      = runPassAux p lmo lp now s2 0 after lastMod acc rs)
    (t t2 : Nat) (after : Option Nat) (lastMod : Option Int)
    (acc : List A) (rs : List (Int × Int)) :
    runPassAux p lmo lp now (FetchOutcome.ok r extra :: s) t after lastMod acc rs
    = runPassAux p lmo lp now (FetchOutcome.ok r extra :: s2) t2 after lastMod acc rs := by
  simp only [runPassAux]
  by_cases hpr : (p extra r.results).2 = true
  · simp [hpr]
  · simp only [hpr, if_false]
    cases hna : r.nextAfter with
    | none => rfl
    | some a =>
      by_cases ha0 : a = 0
      · simp [ha0]
      · simp only [ha0, if_false]
        by_cases ha9 : 9900 ≤ a
        · simp only [ha9, if_true]
          cases hl : r.results.getLast? with
          | none => simp [hl]
          | some lastRec =>
            simp only [hl]
            cases hlm : lmo lastRec with
            | none => simp [hlm]
            | some lm =>
              simp only [hlm]
              exact h _ _ _ _
        · simp only [ha9, if_false]
          exact h _ _ _ _

/-- As long as each page's failure count stays within the retry ceiling, the
retries are invisible: the pass behaves as if every fetch succeeded at once. -/
theorem runPassAux_retries_transparent {ρ α A : Type}
    (p : α → List ρ → List A × Bool) (lmo : ρ → Option Int)
    (lp now : Int) (pages : List (Nat × SearchResult ρ × α))
    (hk : ∀ pg ∈ pages, pg.1 ≤ 4) :
    ∀ after lastMod acc rs,
      runPassAux p lmo lp now (scriptWithRetries pages) 0 after lastMod acc rs
      = runPassAux p lmo lp now (cleanScript pages) 0 after lastMod acc rs := by
  induction pages with
  | nil => intro after lastMod acc rs; rfl
  | cons pg rest ih =>
    intro after lastMod acc rs
    have hk1 : pg.1 ≤ 4 := hk pg (List.mem_cons_self _ _)
    have hkr : ∀ q ∈ rest, q.1 ≤ 4 := by
      intro q hq; exact hk q (List.mem_cons_of_mem _ hq)
    have hsplit : scriptWithRetries (pg :: rest)
        = List.replicate pg.1 FetchOutcome.fail ++
          (FetchOutcome.ok pg.2.1 pg.2.2 :: scriptWithRetries rest) := by
      simp [scriptWithRetries]
    rw [hsplit,
      runPassAux_replicate_fail p lmo lp now pg.1 _ 0 after lastMod acc rs
        (by omega)]
    exact runPassAux_ok_step_congr p lmo lp now pg.2.1 pg.2.2 _ _
      (ih hkr) _ _ after lastMod acc rs

/-- The meetings forEach throws exactly when some record of the page has no
`properties` object. -/
theorem meetingsForEach_throws_iff (lp : Int) (assocs : List MeetingAssoc)
    (emails : List EmailEntry) (data : List MeetingRec) :
    ∀ acc, (meetingsForEach lp assocs emails data acc).2 = true
      ↔ ∃ m ∈ data, m.properties = none := by
  induction data with
  | nil => intro acc; simp [meetingsForEach]
  | cons m rest ih =>
    intro acc
    cases hm : m.properties with
    | none => simp [meetingsForEach, transformMeeting, hm]
    | some mp =>
      have hok : transformMeeting lp assocs emails m
          = Except.ok ((meetingContacts assocs m.id).filterMap fun cid =>
              match truthyStr (contactEmailLookup emails cid) with
              | none => none
              | some email =>
                some { actionName := if lp < mp.hs_createdate then "Meeting Created" else "Meeting Updated",
                       actionDate := if lp < mp.hs_createdate then mp.hs_createdate else mp.hs_lastmodifieddate,
                       includeInAnalytics := 0, identity := email,
                       userProperties := filterNullValuesFromObject (meetingUserProperties mp) }) := by
        simp [transformMeeting, hm]
      simp only [meetingsForEach, hok]
      rw [ih]
      constructor
      · intro ⟨x, hx, hxp⟩; exact ⟨x, List.mem_cons_of_mem _ hx, hxp⟩
      · intro ⟨x, hx, hxp⟩
        rcases List.mem_cons.mp hx with hxm | hxr
        · subst hxm; rw [hm] at hxp; cases hxp
        · exact ⟨x, hxr, hxp⟩

/-- Queue invariant: after any sequence of pushes starting from a state
whose pending array respects the threshold, the pending array still
respects it, and one copy of everything ever pushed sits either in a
flushed batch or in the pending array, in order. -/
theorem pushAllToQueue_invariant {A : Type} (l : List A) :
    ∀ st : QueueState A, st.actions.length ≤ 2000 →
      (pushAllToQueue st l).actions.length ≤ 2000 ∧
      (pushAllToQueue st l).flushedBatches.flatten ++ (pushAllToQueue st l).actions
        = st.flushedBatches.flatten ++ st.actions ++ l := by
  induction l with
  | nil => intro st h; exact ⟨h, by simp [pushAllToQueue]⟩
  | cons a rest ih =>
    intro st h
    have hstep : pushAllToQueue st (a :: rest) = pushAllToQueue (pushToQueue st a) rest := rfl
    have hva : (pushToQueue st a).actions.length ≤ 2000 ∧
        (pushToQueue st a).flushedBatches.flatten ++ (pushToQueue st a).actions
          = st.flushedBatches.flatten ++ st.actions ++ [a] := by
      by_cases hlen : 2000 < (st.actions ++ [a]).length
      · have hpush : pushToQueue st a = ⟨[], st.flushedBatches ++ [st.actions ++ [a]]⟩ := by
          simp only [pushToQueue]
          rw [if_pos hlen]
        rw [hpush]
        exact ⟨by simp, by simp⟩
      · have hpush : pushToQueue st a = ⟨st.actions ++ [a], st.flushedBatches⟩ := by
          simp only [pushToQueue]
          rw [if_neg hlen]
        rw [hpush]
        exact ⟨Nat.le_of_not_lt hlen, by simp⟩
    rcases ih (pushToQueue st a) hva.1 with ⟨h1, h2⟩
    refine ⟨by rw [hstep]; exact h1, ?_⟩
    rw [hstep, h2, hva.2]
    simp

/-- A contact record contributes exactly one action when it passes the
identity guard and none otherwise, whatever the association results. -/
theorem transformContact_length (lp : Int) (assocs : List ContactAssoc)
    (k : ContactRec) :
    (transformContact lp assocs k).length
      = if contactHasIdentity k then 1 else 0 := by
  cases hk : k.properties with
  | none => simp [transformContact, contactHasIdentity, hk]
  | some kp =>
    cases he : truthyStr kp.email with
    | none => simp [transformContact, contactHasIdentity, hk, he]
    | some e => simp [transformContact, contactHasIdentity, hk, he]

/-- A contacts page emits one action per record passing the identity guard. -/
theorem contactsPage_action_count (lp : Int) (assocs : List ContactAssoc)
    (data : List ContactRec) :
    (data.flatMap (transformContact lp assocs)).length
      = data.countP contactHasIdentity := by
  induction data with
  | nil => simp
  | cons k rest ih =>
    simp only [List.flatMap_cons, List.length_append, List.countP_cons, ih,
      transformContact_length]
    by_cases hk : contactHasIdentity k = true
    · simp only [hk, if_true]
      omega
    · simp only [hk, if_false]
      omega

/-- With no company association resolved, the null-filtered `userProperties`
object of a contact action carries no `company_id` key. -/
theorem company_id_key_absent (props : ContactProps) :
    "company_id" ∉
      (filterNullValuesFromObject (contactUserProperties none props)).map
        Prod.fst := by
  intro hmem
  rcases List.mem_map.mp hmem with ⟨pair, hpair, hfst⟩
  rcases List.mem_filterMap.mp hpair with ⟨kv, hkv, hf⟩
  rcases Option.map_eq_some'.mp hf with ⟨v, hv2, hvpair⟩
  have hkey : kv.1 = "company_id" := by rw [← hfst, ← hvpair]
  simp [contactUserProperties] at hkv
  rcases hkv with h | h | h | h | h | h <;> subst h <;> simp_all

/-- With an empty email map (failed batch property read), a meetings page
whose records all carry `properties` emits nothing and does not throw. -/
theorem meetingsForEach_no_emails (lp : Int) (assocs : List MeetingAssoc)
    (mdata : List MeetingRec)
    (hprops : ∀ m ∈ mdata, m.properties.isSome = true) :
    ∀ acc, meetingsForEach lp assocs [] mdata acc = (acc, false) := by
  induction mdata with
  | nil => intro acc; rfl
  | cons m rest ih =>
    intro acc
    rcases Option.isSome_iff_exists.mp (hprops m (List.mem_cons_self _ _)) with ⟨mp, hm⟩
    have hok : transformMeeting lp assocs [] m = Except.ok [] := by
      simp only [transformMeeting, hm]
      congr 1
      rw [List.filterMap_eq_nil_iff]
      intro cid _
      simp [contactEmailLookup, truthyStr]
    simp only [meetingsForEach, hok, List.append_nil]
    exact ih (fun m' hm' => hprops m' (List.mem_cons_of_mem _ hm')) acc

/-- With an empty association map (failed batch association read), a
meetings page whose records all carry `properties` emits nothing and does
not throw: no meeting has any attendee to resolve. -/
theorem meetingsForEach_no_assocs (lp : Int) (emails : List EmailEntry)
    (mdata : List MeetingRec)
    (hprops : ∀ m ∈ mdata, m.properties.isSome = true) :
    ∀ acc, meetingsForEach lp [] emails mdata acc = (acc, false) := by
  induction mdata with
  | nil => intro acc; rfl
  | cons m rest ih =>
    intro acc
    rcases Option.isSome_iff_exists.mp (hprops m (List.mem_cons_self _ _)) with ⟨mp, hm⟩
    have hok : transformMeeting lp [] emails m = Except.ok [] := by
      simp [transformMeeting, hm, meetingContacts]
    simp only [meetingsForEach, hok, List.append_nil]
    exact ih (fun m' hm' => hprops m' (List.mem_cons_of_mem _ hm')) acc

/-! ## Claim theorems -/

/-- C1: For every entity kind (companies, contacts, meetings), when a sync
pass completes successfully, the watermark committed to the account
(`account.lastPulledDates.<kind>`) equals the `now` timestamp captured once
at the start of that pass, and never a timestamp derived from records or
cursors observed mid-pagination (the response scripts are universally
quantified, so no record or cursor content can change the committed value). -/
theorem committed_watermark_is_pass_start_now
    (lpK nowK : Int) (sK : List (FetchOutcome ContactRec (Option (List ContactAssoc))))
    (lpC nowC : Int) (sC : List (FetchOutcome CompanyRec Unit))
    (lpM nowM : Int)
    (sM : List (FetchOutcome MeetingRec (Option (List MeetingAssoc) × Option (List EmailEntry))))
    (hK : (processContacts lpK nowK sK).ok = true)
    (hC : (processCompanies lpC nowC sC).ok = true)
    (hM : (processMeetings lpM nowM sM).ok = true) :
    (processContacts lpK nowK sK).committed = some nowK ∧
    (processCompanies lpC nowC sC).committed = some nowC ∧
    (processMeetings lpM nowM sM).committed = some nowM :=
  ⟨runPassAux_ok_committed _ _ _ _ _ _ _ _ _ _ hK,
   runPassAux_ok_committed _ _ _ _ _ _ _ _ _ _ hC,
   runPassAux_ok_committed _ _ _ _ _ _ _ _ _ _ hM⟩

/-- Witness for C1 (one successful single-page pass per entity kind). -/
theorem committed_watermark_is_pass_start_now_witness :
    (processContacts 0 5 [FetchOutcome.ok ⟨[], none⟩ none]).committed = some 5 ∧
    (processCompanies 0 7 [FetchOutcome.ok ⟨[], none⟩ ()]).committed = some 7 ∧
    (processMeetings 0 9 [FetchOutcome.ok ⟨[], none⟩ (none, none)]).committed = some 9 :=
  committed_watermark_is_pass_start_now 0 5 _ 0 7 _ 0 9 _
    (by decide) (by decide) (by decide)

/-- C3: For every entity pass, a paginated fetch that fails on all attempts
(five failures in a row, `tryCount` exhausting `<= 4`) makes the pass throw
its fatal error: the pass ends unsuccessfully, the entity's watermark is
not committed, and the run continues — the account's other passes still
decide their own watermarks, and subsequent accounts are processed
unchanged. -/
theorem fatal_fetch_uncommitted_run_continues
    (lpK nowK lpC nowC lpM nowM : Int)
    (restK : List (FetchOutcome ContactRec (Option (List ContactAssoc))))
    (restC : List (FetchOutcome CompanyRec Unit))
    (restM : List (FetchOutcome MeetingRec (Option (List MeetingAssoc) × Option (List EmailEntry))))
    (acct : Account) (s : AccountScripts)
    (accounts : List (Account × AccountScripts)) :
    (processContacts lpK nowK
        (.fail :: .fail :: .fail :: .fail :: .fail :: restK)).ok = false ∧
    (processContacts lpK nowK
        (.fail :: .fail :: .fail :: .fail :: .fail :: restK)).committed = none ∧
    (processCompanies lpC nowC
        (.fail :: .fail :: .fail :: .fail :: .fail :: restC)).ok = false ∧
    (processCompanies lpC nowC
        (.fail :: .fail :: .fail :: .fail :: .fail :: restC)).committed = none ∧
    (processMeetings lpM nowM
        (.fail :: .fail :: .fail :: .fail :: .fail :: restM)).ok = false ∧
    (processMeetings lpM nowM
        (.fail :: .fail :: .fail :: .fail :: .fail :: restM)).committed = none ∧
    (processAccount acct s).1.contactsDate
      = (if (processContacts acct.contactsDate s.nowContacts s.contactsScript).ok
          then s.nowContacts else acct.contactsDate) ∧
    (processAccount acct s).1.companiesDate
      = (if (processCompanies acct.companiesDate s.nowCompanies s.companiesScript).ok
          then s.nowCompanies else acct.companiesDate) ∧
    (processAccount acct s).1.meetingsDate
      = (if (processMeetings acct.meetingsDate s.nowMeetings s.meetingsScript).ok
          then s.nowMeetings else acct.meetingsDate) ∧
    pullDataFromHubspot ((acct, s) :: accounts)
      = processAccount acct s :: pullDataFromHubspot accounts := by
  refine ⟨?_, ?_, ?_, ?_, ?_, ?_, rfl, rfl, rfl, rfl⟩ <;>
    simp [processContacts, processCompanies, processMeetings, runPass, runPassAux]

/-- C4 counterexample: a successful companies pass over two pages and three
cumulative records (3 < 9900, below the cursor depth limit) performs zero
page-boundary cursor resets, not exactly one. -/
theorem below_limit_single_reset_counterexample :
    ((processCompanies 0 100
        [FetchOutcome.ok ⟨[⟨"a", 10, 20, some ⟨none, none⟩⟩,
                           ⟨"b", 11, 21, some ⟨none, none⟩⟩], some 2⟩ (),
         FetchOutcome.ok ⟨[⟨"c", 12, 22, some ⟨none, none⟩⟩], none⟩ ()]).ok = true) ∧
    ((processCompanies 0 100
        [FetchOutcome.ok ⟨[⟨"a", 10, 20, some ⟨none, none⟩⟩,
                           ⟨"b", 11, 21, some ⟨none, none⟩⟩], some 2⟩ (),
         FetchOutcome.ok ⟨[⟨"c", 12, 22, some ⟨none, none⟩⟩], none⟩ ()]).actions.length = 3) ∧
    (3 < 9900) ∧
    ((processCompanies 0 100
        [FetchOutcome.ok ⟨[⟨"a", 10, 20, some ⟨none, none⟩⟩,
                           ⟨"b", 11, 21, some ⟨none, none⟩⟩], some 2⟩ (),
         FetchOutcome.ok ⟨[⟨"c", 12, 22, some ⟨none, none⟩⟩], none⟩ ()]).resets.length = 0) ∧
    ¬ (0 : Nat) = 1 := by decide

/-- C4 (amended): for every pagination sequence whose returned cursors stay
below the depth limit 9900 — which is the case whenever the cumulative
record count stays below 9900, the cursor being the record offset — no
page-boundary cursor reset occurs (so the reset trace is empty and
`windowStart` never changes; vacuously, every reset strictly increases
`windowStart`). -/
theorem no_reset_while_cursor_below_limit
    (lpC nowC : Int) (sC : List (FetchOutcome CompanyRec Unit))
    (lpK nowK : Int) (sK : List (FetchOutcome ContactRec (Option (List ContactAssoc))))
    (lpM nowM : Int)
    (sM : List (FetchOutcome MeetingRec (Option (List MeetingAssoc) × Option (List EmailEntry))))
    (hC : ∀ o ∈ sC, cursorBelowLimit o = true)
    (hK : ∀ o ∈ sK, cursorBelowLimit o = true)
    (hM : ∀ o ∈ sM, cursorBelowLimit o = true) :
    (processCompanies lpC nowC sC).resets = [] ∧
    (processContacts lpK nowK sK).resets = [] ∧
    (processMeetings lpM nowM sM).resets = [] :=
  ⟨runPassAux_no_reset _ _ _ _ _ hC _ _ _ _ _,
   runPassAux_no_reset _ _ _ _ _ hK _ _ _ _ _,
   runPassAux_no_reset _ _ _ _ _ hM _ _ _ _ _⟩

/-- Witness for the amended C4: a concrete two-page, three-record pass of
each kind with cursors below the limit performs no reset. -/
theorem no_reset_while_cursor_below_limit_witness :
    (processCompanies 1 200
        [FetchOutcome.ok ⟨[⟨"d", 30, 40, some ⟨none, none⟩⟩], some 1⟩ (),
         FetchOutcome.ok ⟨[⟨"e", 31, 41, some ⟨none, none⟩⟩], none⟩ ()]).resets = [] ∧
    (processContacts 1 200 [FetchOutcome.ok ⟨[], none⟩ none]).resets = [] ∧
    (processMeetings 1 200 [FetchOutcome.ok ⟨[], none⟩ (none, none)]).resets = [] :=
  no_reset_while_cursor_below_limit 1 200 _ 1 200 _ 1 200 _
    (by decide) (by decide) (by decide)

/-- C6: under single-threaded processing of one account, every action pushed
onto the action buffer is flushed to the sink exactly once — the flushed
batches concatenate, in order, to exactly the pushed sequence once the
drain flushes the remainder — and after every completed push the pending
array's length is at most the threshold 2000 (the threshold is exceeded
only transiently inside a single push, which immediately snapshots and
clears). -/
theorem queue_exactly_once_and_bounded
    (l l1 l2 : List AnyAction) (hsplit : l = l1 ++ l2) :
    (drainQueue (pushAllToQueue ⟨[], []⟩ l)).flushedBatches.flatten = l ∧
    (pushAllToQueue (⟨[], []⟩ : QueueState AnyAction) l1).actions.length ≤ 2000 := by
  rcases pushAllToQueue_invariant l ⟨[], []⟩ (by simp) with ⟨hlen, hflat⟩
  have hflat' : (pushAllToQueue (⟨[], []⟩ : QueueState AnyAction) l).flushedBatches.flatten
      ++ (pushAllToQueue (⟨[], []⟩ : QueueState AnyAction) l).actions = l := by
    simpa using hflat
  constructor
  · simp only [drainQueue]
    split
    · simpa using hflat'
    · rename_i hz
      have hnil : (pushAllToQueue (⟨[], []⟩ : QueueState AnyAction) l).actions = [] :=
        List.eq_nil_of_length_eq_zero (by omega)
      rw [hnil] at hflat'
      simpa using hflat'
  · subst hsplit
    exact (pushAllToQueue_invariant l1 ⟨[], []⟩ (by simp)).1

/-- Witness for C6: one concrete pushed action is delivered exactly once and
the pending bound holds after the first push. -/
theorem queue_exactly_once_and_bounded_witness :
    (drainQueue (pushAllToQueue ⟨[], []⟩
        [AnyAction.company ⟨"Company Created", 0, 0, "x", none, none⟩])).flushedBatches.flatten
      = [AnyAction.company ⟨"Company Created", 0, 0, "x", none, none⟩] ∧
    (pushAllToQueue (⟨[], []⟩ : QueueState AnyAction)
        [AnyAction.company ⟨"Company Created", 0, 0, "x", none, none⟩]).actions.length ≤ 2000 :=
  queue_exactly_once_and_bounded
    [AnyAction.company ⟨"Company Created", 0, 0, "x", none, none⟩]
    [AnyAction.company ⟨"Company Created", 0, 0, "x", none, none⟩] [] (by decide)

/-- C2 counterexample: in a companies pass, a record fetched with
`createdAt = 500 ≤ 700 = watermark` is classified "updated" as the claim
says, but the emitted action's `actionDate` is `updatedAt - 2000 = -1000`,
not the record's `updatedAt = 1000`: the claim's `actionDate` clause fails
for company records. -/
theorem actionDate_equals_record_timestamp_counterexample :
    ((processCompanies 700 900
        [FetchOutcome.ok ⟨[⟨"1", 500, 1000, some ⟨none, none⟩⟩], none⟩ ()]).actions.map
          (fun a => (a.actionName, a.actionDate))
      = [("Company Updated", -1000)]) ∧
    ¬ (-1000 : Int) = 1000 := by decide

/-- C2 (amended): for every fetched record in every pass, the record is
classified "created" iff its creation timestamp is strictly greater than
the watermark captured at pass start (equality classifies as "updated");
the emitted `actionDate` is `createdAt` for created records and `updatedAt`
(`hs_lastmodifieddate` for meetings) for updated records for contact and
meeting actions, while company actions carry that timestamp minus 2000 ms. -/
theorem classification_strict_and_action_dates
    (lp : Int) (c : CompanyRec) (cp : CompanyProps)
    (k : ContactRec) (kp : ContactProps) (e : String)
    (assocs : List ContactAssoc)
    (m : MeetingRec) (mp : MeetingProps)
    (massocs : List MeetingAssoc) (emails : List EmailEntry)
    (hc : c.properties = some cp)
    (hk : k.properties = some kp) (he : kp.email = some e) (hne : ¬ e = "")
    (hm : m.properties = some mp) :
    ((transformCompany lp c).map (fun a => (a.actionName, a.actionDate))
      = [(if lp < c.createdAt then "Company Created" else "Company Updated",
          (if lp < c.createdAt then c.createdAt else c.updatedAt) - 2000)]) ∧
    ((transformContact lp assocs k).map (fun a => (a.actionName, a.actionDate))
      = [(if lp < k.createdAt then "Contact Created" else "Contact Updated",
          if lp < k.createdAt then k.createdAt else k.updatedAt)]) ∧
    (∀ acts, transformMeeting lp massocs emails m = Except.ok acts →
      ∀ a ∈ acts,
        a.actionName
          = (if lp < mp.hs_createdate then "Meeting Created" else "Meeting Updated") ∧
        a.actionDate
          = (if lp < mp.hs_createdate then mp.hs_createdate
             else mp.hs_lastmodifieddate)) := by
  refine ⟨?_, ?_, ?_⟩
  · simp [transformCompany, hc]
  · simp [transformContact, hk, truthyStr, he, hne]
  · intro acts hacts a ha
    simp only [transformMeeting, hm, Except.ok.injEq] at hacts
    subst hacts
    rcases List.mem_filterMap.mp ha with ⟨cid, hcid, hfa⟩
    cases htr : truthyStr (contactEmailLookup emails cid) with
    | none => rw [htr] at hfa; cases hfa
    | some email =>
      rw [htr] at hfa
      simp only [Option.some.injEq] at hfa
      subst hfa
      exact ⟨rfl, rfl⟩

/-- Witness for the amended C2, showing in particular the boundary case:
a company with `createdAt` equal to the watermark is classified "updated",
a meeting with `hs_createdate` equal to the watermark is classified
"updated", and a contact strictly after it is classified "created". -/
theorem classification_strict_and_action_dates_witness :
    ((transformCompany 50 ⟨"comp", 50, 60, some ⟨none, none⟩⟩).map
        (fun a => (a.actionName, a.actionDate)) = [("Company Updated", -1940)]) ∧
    ((transformContact 50 []
        ⟨"kid", 51, 70, some ⟨none, none, none, some "a@b.c", none, none, none⟩⟩).map
        (fun a => (a.actionName, a.actionDate)) = [("Contact Created", 51)]) ∧
    (∀ acts,
      transformMeeting 50 [⟨some "mid", some ["ct"]⟩] [⟨"ct", some "z@y.x"⟩]
          ⟨"mid", some ⟨none, none, none, 50, 80⟩⟩ = Except.ok acts →
      ∀ a ∈ acts, a.actionName = "Meeting Updated" ∧ a.actionDate = 80) := by
  have h := classification_strict_and_action_dates 50
    ⟨"comp", 50, 60, some ⟨none, none⟩⟩ ⟨none, none⟩
    ⟨"kid", 51, 70, some ⟨none, none, none, some "a@b.c", none, none, none⟩⟩
    ⟨none, none, none, some "a@b.c", none, none, none⟩ "a@b.c" []
    ⟨"mid", some ⟨none, none, none, 50, 80⟩⟩ ⟨none, none, none, 50, 80⟩
    [⟨some "mid", some ["ct"]⟩] [⟨"ct", some "z@y.x"⟩]
    rfl rfl rfl (by decide) rfl
  simpa using h

/-- C7 counterexample: the 2-second offset is not confined to company
*created* actions — a company *updated* action also carries
`updatedAt - 2000` (here `-1750` instead of the record's `250`). -/
theorem offset_only_for_company_created_counterexample :
    ((processCompanies 300 400
        [FetchOutcome.ok ⟨[⟨"u", 100, 250, some ⟨none, none⟩⟩], none⟩ ()]).actions.map
          (fun a => (a.actionName, a.actionDate))
      = [("Company Updated", -1750)]) ∧
    ¬ (-1750 : Int) = 250 := by decide

/-- C7 (amended): the fixed 2000 ms offset is subtracted from the
`actionDate` of every company action, created and updated alike; contact
and meeting actions, whether created or updated, carry their record
timestamp with no offset. -/
theorem offset_all_company_actions_none_elsewhere
    (lp : Int) (c : CompanyRec) (k : ContactRec) (assocs : List ContactAssoc)
    (m : MeetingRec) (mp : MeetingProps) (massocs : List MeetingAssoc)
    (emails : List EmailEntry) (hm : m.properties = some mp) :
    (∀ a ∈ transformCompany lp c,
      a.actionDate = (if lp < c.createdAt then c.createdAt else c.updatedAt) - 2000) ∧
    (∀ a ∈ transformContact lp assocs k,
      a.actionDate = (if lp < k.createdAt then k.createdAt else k.updatedAt)) ∧
    (∀ acts, transformMeeting lp massocs emails m = Except.ok acts →
      ∀ a ∈ acts,
        a.actionDate = (if lp < mp.hs_createdate then mp.hs_createdate
                        else mp.hs_lastmodifieddate)) := by
  refine ⟨?_, ?_, ?_⟩
  · intro a ha
    cases hc : c.properties with
    | none => simp [transformCompany, hc] at ha
    | some cp =>
      simp only [transformCompany, hc, List.mem_singleton] at ha
      subst ha
      rfl
  · intro a ha
    cases hk : k.properties with
    | none => simp [transformContact, hk] at ha
    | some kp =>
      cases he : truthyStr kp.email with
      | none => simp [transformContact, hk, he] at ha
      | some e =>
        simp only [transformContact, hk, he, List.mem_singleton] at ha
        subst ha
        rfl
  · intro acts hacts a ha
    simp only [transformMeeting, hm, Except.ok.injEq] at hacts
    subst hacts
    rcases List.mem_filterMap.mp ha with ⟨cid, hcid, hfa⟩
    cases htr : truthyStr (contactEmailLookup emails cid) with
    | none => rw [htr] at hfa; cases hfa
    | some email =>
      rw [htr] at hfa
      simp only [Option.some.injEq] at hfa
      subst hfa
      rfl

/-- Witness for the amended C7: the offset shows on a concrete updated
company action, and concrete contact and meeting actions carry their raw
timestamps. -/
theorem offset_all_company_actions_none_elsewhere_witness :
    (∀ a ∈ transformCompany 5 (⟨"c7", 3, 9, some ⟨none, none⟩⟩ : CompanyRec),
      a.actionDate = 9 - 2000) ∧
    (∀ a ∈ transformContact 5 []
        (⟨"k7", 8, 11, some ⟨none, none, none, some "k@x.y", none, none, none⟩⟩ : ContactRec),
      a.actionDate = 8) ∧
    (∀ acts,
      transformMeeting 5 [⟨some "m7", some ["p7"]⟩] [⟨"p7", some "p@x.y"⟩]
          (⟨"m7", some ⟨none, none, none, 8, 12⟩⟩ : MeetingRec) = Except.ok acts →
      ∀ a ∈ acts, a.actionDate = 8) := by
  have h := offset_all_company_actions_none_elsewhere 5
    ⟨"c7", 3, 9, some ⟨none, none⟩⟩
    ⟨"k7", 8, 11, some ⟨none, none, none, some "k@x.y", none, none, none⟩⟩ []
    ⟨"m7", some ⟨none, none, none, 8, 12⟩⟩ ⟨none, none, none, 8, 12⟩
    [⟨some "m7", some ["p7"]⟩] [⟨"p7", some "p@x.y"⟩] rfl
  simpa using h

/-- C9: a record with no usable identity — a contact whose `email` property
is missing, or a meeting none of whose associated contacts resolves to an
email — is skipped: it emits no action, raises no error (the contact page's
error flag is always `false`; the meeting transform returns `Except.ok []`,
not an error), and the pass goes on. -/
theorem missing_identity_skipped_not_erred
    (lp : Int) (assocs : List ContactAssoc) (k : ContactRec) (kp : ContactProps)
    (ao : Option (List ContactAssoc)) (data : List ContactRec)
    (m : MeetingRec) (mp : MeetingProps) (massocs : List MeetingAssoc)
    (emails : List EmailEntry)
    (hk : k.properties = some kp) (he : kp.email = none)
    (hm : m.properties = some mp)
    (hall : ∀ cid ∈ meetingContacts massocs m.id,
      truthyStr (contactEmailLookup emails cid) = none) :
    transformContact lp assocs k = [] ∧
    (processContactsPage lp ao data).2 = false ∧
    transformMeeting lp massocs emails m = Except.ok [] := by
  refine ⟨?_, rfl, ?_⟩
  · simp [transformContact, hk, he, truthyStr]
  · simp only [transformMeeting, hm]
    congr 1
    rw [List.filterMap_eq_nil_iff]
    intro cid hcid
    simp [hall cid hcid]

/-- Witness for C9: a concrete email-less contact and a concrete meeting
whose only attendee has no email entry are both skipped without error. -/
theorem missing_identity_skipped_not_erred_witness :
    transformContact 3 []
        (⟨"k9", 9, 10, some ⟨some "Ann", none, none, none, none, none, none⟩⟩ :
          ContactRec) = [] ∧
    (processContactsPage 3 none
        [(⟨"k9", 9, 10, some ⟨some "Ann", none, none, none, none, none, none⟩⟩ :
          ContactRec)]).2 = false ∧
    transformMeeting 3 [⟨some "m9", some ["p9"]⟩] [⟨"p9", none⟩]
        (⟨"m9", some ⟨none, none, none, 9, 10⟩⟩ : MeetingRec) = Except.ok [] :=
  missing_identity_skipped_not_erred 3 []
    ⟨"k9", 9, 10, some ⟨some "Ann", none, none, none, none, none, none⟩⟩
    ⟨some "Ann", none, none, none, none, none, none⟩ none
    [⟨"k9", 9, 10, some ⟨some "Ann", none, none, none, none, none, none⟩⟩]
    ⟨"m9", some ⟨none, none, none, 9, 10⟩⟩ ⟨none, none, none, 9, 10⟩
    [⟨some "m9", some ["p9"]⟩] [⟨"p9", none⟩]
    rfl rfl rfl (by decide)

/-- C5: a failed batch association lookup (contacts) or a failed batch
association/property read (meetings) does not abort the page: the contacts
page's error flag stays `false`, every record passing the identity guard is
still transformed (one action each), the emitted contact actions carry no
`company_id` linkage, and meeting records whose attendee identity cannot be
resolved produce no output action (the meetings page returns cleanly with
no actions whether the association read or the property read failed). -/
theorem association_failure_degrades_page_continues
    (lp : Int) (data : List ContactRec) (mdata : List MeetingRec)
    (ao : Option (List MeetingAssoc)) (eo : Option (List EmailEntry))
    (hprops : ∀ m ∈ mdata, m.properties.isSome = true) :
    (processContactsPage lp none data).2 = false ∧
    (processContactsPage lp none data).1.length = data.countP contactHasIdentity ∧
    (∀ a ∈ (processContactsPage lp none data).1,
      "company_id" ∉ a.userProperties.map Prod.fst) ∧
    processMeetingsPage lp (ao, none) mdata = ([], false) ∧
    processMeetingsPage lp (none, eo) mdata = ([], false) := by
  refine ⟨rfl, contactsPage_action_count lp [] data, ?_, ?_, ?_⟩
  · intro a ha
    simp only [processContactsPage, Option.getD_none] at ha
    rcases List.mem_flatMap.mp ha with ⟨k, hkmem, hka⟩
    cases hk : k.properties with
    | none => simp [transformContact, hk] at hka
    | some kp =>
      cases he : truthyStr kp.email with
      | none =>
        simp only [transformContact, hk, he] at hka
        cases hka
      | some e =>
        simp only [transformContact, hk, he, List.mem_singleton] at hka
        subst hka
        have := company_id_key_absent kp
        simpa [companyAssociationLookup] using this
  · simp only [processMeetingsPage, Option.getD_none]
    exact meetingsForEach_no_emails lp (ao.getD []) mdata hprops []
  · simp only [processMeetingsPage, Option.getD_none]
    exact meetingsForEach_no_assocs lp (eo.getD []) mdata hprops []

/-- Witness for C5: a concrete one-contact page with a failed association
call still emits its action, without `company_id`; a concrete one-meeting
page with failed batch calls emits nothing and does not abort. -/
theorem association_failure_degrades_page_continues_witness :
    (processContactsPage 2 none
        [(⟨"k5", 9, 10, some ⟨none, none, none, some "e@f.g", none, none, none⟩⟩ :
          ContactRec)]).2 = false ∧
    (processContactsPage 2 none
        [(⟨"k5", 9, 10, some ⟨none, none, none, some "e@f.g", none, none, none⟩⟩ :
          ContactRec)]).1.length
      = [(⟨"k5", 9, 10, some ⟨none, none, none, some "e@f.g", none, none, none⟩⟩ :
          ContactRec)].countP contactHasIdentity ∧
    (∀ a ∈ (processContactsPage 2 none
        [(⟨"k5", 9, 10, some ⟨none, none, none, some "e@f.g", none, none, none⟩⟩ :
          ContactRec)]).1,
      "company_id" ∉ a.userProperties.map Prod.fst) ∧
    processMeetingsPage 2 ((some [⟨some "m5", some ["p5"]⟩] :
        Option (List MeetingAssoc)), none)
        [(⟨"m5", some ⟨none, none, none, 9, 10⟩⟩ : MeetingRec)] = ([], false) ∧
    processMeetingsPage 2 ((none : Option (List MeetingAssoc)),
        (some [⟨"p5", some "p@q.r"⟩] : Option (List EmailEntry)))
        [(⟨"m5", some ⟨none, none, none, 9, 10⟩⟩ : MeetingRec)] = ([], false) :=
  association_failure_degrades_page_continues 2
    [⟨"k5", 9, 10, some ⟨none, none, none, some "e@f.g", none, none, none⟩⟩]
    [⟨"m5", some ⟨none, none, none, 9, 10⟩⟩]
    (some [⟨some "m5", some ["p5"]⟩]) (some [⟨"p5", some "p@q.r"⟩])
    (by decide)

/-- C10: a fetched page containing a meeting record without a `properties`
object makes the meetings forEach throw on the unguarded
`meeting.properties.hs_createdate` access, so the meetings pass aborts
unsuccessfully without committing its watermark (shown for a pass whose
fetch of that page succeeds after any `j ≤ 4` retries); by contrast, the
companies and contacts passes skip a record whose `properties` object is
missing and keep processing the rest of the page, never raising the page
error flag. -/
theorem meetings_throw_on_missing_properties_others_skip
    (lp now : Int) (extra extra2 : Option (List MeetingAssoc) × Option (List EmailEntry))
    (data : List MeetingRec) (r : SearchResult MeetingRec)
    (rest : List (FetchOutcome MeetingRec
      (Option (List MeetingAssoc) × Option (List EmailEntry))))
    (c : CompanyRec) (k : ContactRec) (assocs : List ContactAssoc)
    (d1 d2 : List CompanyRec) (e1 e2 : List ContactRec)
    (ao : Option (List ContactAssoc))
    (hbadpage : ∃ m ∈ data, m.properties = none)
    (hbadfetched : ∃ m ∈ r.results, m.properties = none)
    (hc : c.properties = none) (hk : k.properties = none) :
    (processMeetingsPage lp extra data).2 = true ∧
    (∀ j, j ≤ 4 →
      (processMeetings lp now
          (List.replicate j FetchOutcome.fail ++ FetchOutcome.ok r extra2 :: rest)).ok
        = false ∧
      (processMeetings lp now
          (List.replicate j FetchOutcome.fail ++ FetchOutcome.ok r extra2 :: rest)).committed
        = none) ∧
    transformCompany lp c = [] ∧
    transformContact lp assocs k = [] ∧
    (processCompaniesPage lp () (d1 ++ c :: d2)).1
      = (processCompaniesPage lp () (d1 ++ d2)).1 ∧
    (processCompaniesPage lp () (d1 ++ c :: d2)).2 = false ∧
    (processContactsPage lp ao (e1 ++ k :: e2)).1
      = (processContactsPage lp ao (e1 ++ e2)).1 ∧
    (processContactsPage lp ao (e1 ++ k :: e2)).2 = false := by
  refine ⟨?_, ?_, ?_, ?_, ?_, rfl, ?_, rfl⟩
  · exact (meetingsForEach_throws_iff lp _ _ data []).mpr hbadpage
  · intro j hj
    have hpr : (processMeetingsPage lp extra2 r.results).2 = true :=
      (meetingsForEach_throws_iff lp _ _ r.results []).mpr hbadfetched
    have h2a : processMeetings lp now
        (List.replicate j FetchOutcome.fail ++ FetchOutcome.ok r extra2 :: rest)
        = runPassAux (processMeetingsPage lp)
            (fun m => m.properties.map fun p => p.hs_lastmodifieddate) lp now
            (List.replicate j FetchOutcome.fail ++ FetchOutcome.ok r extra2 :: rest)
            0 none none [] [] := rfl
    have h2 := h2a.trans
      (runPassAux_replicate_fail (processMeetingsPage lp)
        (fun m => m.properties.map fun p => p.hs_lastmodifieddate) lp now j
        (FetchOutcome.ok r extra2 :: rest) 0 none none [] [] (by omega))
    rw [h2]
    simp [runPassAux, hpr]
  · simp [transformCompany, hc]
  · simp [transformContact, hk]
  · simp [processCompaniesPage, transformCompany, hc]
  · simp [processContactsPage, transformContact, hk]

/-- Witness for C10: a concrete page with one proper meeting and one without
`properties` throws; a two-retry pass over it fails and commits nothing; a
company and a contact without `properties` are skipped and their pages
continue. -/
theorem meetings_throw_on_missing_properties_others_skip_witness :
    (processMeetingsPage 4 (none, none)
        [(⟨"mA", some ⟨none, none, none, 1, 2⟩⟩ : MeetingRec), ⟨"mB", none⟩]).2 = true ∧
    (∀ j, j ≤ 4 →
      (processMeetings 4 40
          (List.replicate j FetchOutcome.fail ++
            FetchOutcome.ok ⟨[(⟨"mA", some ⟨none, none, none, 1, 2⟩⟩ : MeetingRec),
              ⟨"mB", none⟩], none⟩ (none, none) :: [])).ok = false ∧
      (processMeetings 4 40
          (List.replicate j FetchOutcome.fail ++
            FetchOutcome.ok ⟨[(⟨"mA", some ⟨none, none, none, 1, 2⟩⟩ : MeetingRec),
              ⟨"mB", none⟩], none⟩ (none, none) :: [])).committed = none) ∧
    transformCompany 4 (⟨"cA", 1, 2, none⟩ : CompanyRec) = [] ∧
    transformContact 4 [] (⟨"kA", 1, 2, none⟩ : ContactRec) = [] ∧
    (processCompaniesPage 4 ()
        ([⟨"cB", 1, 2, some ⟨none, none⟩⟩] ++ (⟨"cA", 1, 2, none⟩ : CompanyRec) ::
          [⟨"cC", 1, 2, some ⟨none, none⟩⟩])).1
      = (processCompaniesPage 4 ()
          ([⟨"cB", 1, 2, some ⟨none, none⟩⟩] ++ [⟨"cC", 1, 2, some ⟨none, none⟩⟩])).1 ∧
    (processCompaniesPage 4 ()
        ([⟨"cB", 1, 2, some ⟨none, none⟩⟩] ++ (⟨"cA", 1, 2, none⟩ : CompanyRec) ::
          [⟨"cC", 1, 2, some ⟨none, none⟩⟩])).2 = false ∧
    (processContactsPage 4 none
        ([] ++ (⟨"kA", 1, 2, none⟩ : ContactRec) :: [])).1
      = (processContactsPage 4 none ([] ++ [])).1 ∧
    (processContactsPage 4 none
        ([] ++ (⟨"kA", 1, 2, none⟩ : ContactRec) :: [])).2 = false :=
  meetings_throw_on_missing_properties_others_skip 4 40 (none, none) (none, none)
    [⟨"mA", some ⟨none, none, none, 1, 2⟩⟩, ⟨"mB", none⟩]
    ⟨[⟨"mA", some ⟨none, none, none, 1, 2⟩⟩, ⟨"mB", none⟩], none⟩ []
    ⟨"cA", 1, 2, none⟩ ⟨"kA", 1, 2, none⟩ []
    [⟨"cB", 1, 2, some ⟨none, none⟩⟩] [⟨"cC", 1, 2, some ⟨none, none⟩⟩] [] [] none
    (by decide) (by decide) rfl rfl

/-- C8: the retry/backoff path is observationally transparent — for every
pass of every entity kind, a script in which each page's fetch fails up to
three times before succeeding yields exactly the same `PassOutput` (same
actions, same committed watermark, same reset trace) as the script in
which every fetch succeeds on its first attempt. -/
theorem retries_transparent_to_pass_output
    (lpC nowC : Int) (pagesC : List (Nat × SearchResult CompanyRec × Unit))
    (lpK nowK : Int)
    (pagesK : List (Nat × SearchResult ContactRec × Option (List ContactAssoc)))
    (lpM nowM : Int)
    (pagesM : List (Nat × SearchResult MeetingRec ×
      (Option (List MeetingAssoc) × Option (List EmailEntry))))
    (hC : ∀ pg ∈ pagesC, pg.1 ≤ 3) (hK : ∀ pg ∈ pagesK, pg.1 ≤ 3)
    (hM : ∀ pg ∈ pagesM, pg.1 ≤ 3) :
    processCompanies lpC nowC (scriptWithRetries pagesC)
      = processCompanies lpC nowC (cleanScript pagesC) ∧
    processContacts lpK nowK (scriptWithRetries pagesK)
      = processContacts lpK nowK (cleanScript pagesK) ∧
    processMeetings lpM nowM (scriptWithRetries pagesM)
      = processMeetings lpM nowM (cleanScript pagesM) :=
  ⟨runPassAux_retries_transparent _ _ _ _ _
      (fun pg h => Nat.le_trans (hC pg h) (by omega)) _ _ _ _,
   runPassAux_retries_transparent _ _ _ _ _
      (fun pg h => Nat.le_trans (hK pg h) (by omega)) _ _ _ _,
   runPassAux_retries_transparent _ _ _ _ _
      (fun pg h => Nat.le_trans (hM pg h) (by omega)) _ _ _ _⟩

/-- Witness for C8: concrete two-page passes in which the first page's fetch
fails three times and the second page's fetch fails twice produce the same
output as the all-clean scripts. -/
theorem retries_transparent_to_pass_output_witness :
    processCompanies 0 10 (scriptWithRetries
        [(3, ⟨[⟨"c8", 1, 2, some ⟨none, none⟩⟩], some 1⟩, ()), (2, ⟨[], none⟩, ())])
      = processCompanies 0 10 (cleanScript
        [(3, ⟨[⟨"c8", 1, 2, some ⟨none, none⟩⟩], some 1⟩, ()), (2, ⟨[], none⟩, ())]) ∧
    processContacts 0 11 (scriptWithRetries [(3, ⟨[], none⟩, none)])
      = processContacts 0 11 (cleanScript [(3, ⟨[], none⟩, none)]) ∧
    processMeetings 0 12 (scriptWithRetries [(1, ⟨[], none⟩, (none, none))])
      = processMeetings 0 12 (cleanScript [(1, ⟨[], none⟩, (none, none))]) :=
  retries_transparent_to_pass_output 0 10
    [(3, ⟨[⟨"c8", 1, 2, some ⟨none, none⟩⟩], some 1⟩, ()), (2, ⟨[], none⟩, ())]
    0 11 [(3, ⟨[], none⟩, none)] 0 12 [(1, ⟨[], none⟩, (none, none))]
    (by decide) (by decide) (by decide)

end Worker
